import Mathlib

/-!
Shallow embedding of the animation target binder
(`src/anim/binder/default-anim-binder.js`, class `DefaultAnimBinder`).

JavaScript numbers stored in the reference-count and diagnostic-counter
tables are modelled by `JsNum` (absent object property = `undef`,
`NaN` = `nan`, ordinary integers = `num`).  Plain-object maps are
modelled as functions `String → Option _` / `String → JsNum`, with
assignment as pointwise functional update.  Mutable binder state is
threaded explicitly through each operation.
-/

/-- JavaScript numeric value as stored in a plain-object table: an absent
property reads as `undefined`, arithmetic on `undefined` yields `NaN`,
and ordinary counts are integers. -/
inductive JsNum where
  | undef : JsNum
  | nan : JsNum
  | num : Int → JsNum
deriving DecidableEq, Repr

/-- JavaScript truthiness of a `JsNum`: `undefined`, `NaN` and `0` are
falsy, every other number is truthy (mirrors `!this.nodeCounts[...]`). -/
def JsNum.truthy : JsNum → Bool
  | .undef => false
  | .nan => false
  | .num k => k != 0

/-- `Number.isFinite` on a `JsNum` (every modelled number is finite). -/
def JsNum.isFiniteJs : JsNum → Bool
  | .num _ => true
  | _ => false

/-- The stored result of the JavaScript `x++` / `x + 1` step:
`undefined + 1` is `NaN`, `NaN + 1` is `NaN`. -/
def JsNum.jsIncr : JsNum → JsNum
  | .undef => .nan
  | .nan => .nan
  | .num k => .num (k + 1)

/-- The stored result of the JavaScript `x--` step: `undefined - 1` is
`NaN`, `NaN - 1` is `NaN`. -/
def JsNum.jsDecr : JsNum → JsNum
  | .undef => .nan
  | .nan => .nan
  | .num k => .num (k - 1)

/-- The `=== 0` test performed by `unresolve` after the decrement. -/
def JsNum.isZero : JsNum → Bool
  | .num k => k == 0
  | _ => false

/-- Observable count value of a table slot: an absent entry counts as
zero (`NaN` is also sent to zero; theorems needing to distinguish it add
an explicit hypothesis). -/
def JsNum.toCount : JsNum → Int
  | .undef => 0
  | .nan => 0
  | .num k => k

/-- A scene-graph node as the binder sees it: its `name` and its full
hierarchical `path` string (the two properties the binder reads). -/
structure NodeRef where
  name : String
  path : String
deriving DecidableEq, Repr

/-- Modelled from the spec: the externally owned scene graph is a
hierarchy of named nodes with ordered children (`node.name`,
`node.children`). -/
inductive GraphNode where
  | mk : String → List GraphNode → GraphNode

/-- Name of a graph node. -/
def GraphNode.name : GraphNode → String
  | .mk n _ => n

/-- Children list of a graph node. -/
def GraphNode.children : GraphNode → List GraphNode
  | .mk _ cs => cs

/-- Modelled from the spec: a node is identified by a name and a full
hierarchical path; a child's path extends its parent's path with `/` and
the child's name. -/
def childPath (parentPath : String) (childName : String) : String :=
  parentPath ++ "/" ++ childName

mutual

/-- Depth-first pre-order traversal of the graph (a node before its
children, children in index order), listing each node's `NodeRef`; this
is the visit order of the constructor's `flatten` function. -/
def preorderAux : GraphNode → String → List NodeRef
  | .mk n cs, p => ⟨n, p⟩ :: preorderListAux cs p

/-- Pre-order traversal of a list of sibling subtrees, in index order. -/
def preorderListAux : List GraphNode → String → List NodeRef
  | [], _ => []
  | c :: cs, p => preorderAux c (childPath p c.name) ++ preorderListAux cs p

end

/-- Pre-order node list of a whole graph; the root's path is its name. -/
def preorderRefs (g : GraphNode) : List NodeRef :=
  preorderAux g g.name

/-- The constructor's `flatten` pass: successive assignments
`nodes[node.name] = node` in pre-order, a later assignment overwriting
an earlier one with the same name. -/
def buildNodes (l : List NodeRef) : String → Option NodeRef :=
  l.foldl (fun m nd => fun k => if k = nd.name then some nd else m k) (fun _ => none)

/-- Modelled from the spec: the scene graph's `findByPath` — starting at
the bound graph root, follow the entity-path segments by child name; if
a node exists at every segment return it (an empty segment list returns
the root itself).  The accumulated `curPath` tracks the found node's
full hierarchical path. -/
def findByPathRef (segs : List String) (n : GraphNode) (curPath : String) : Option NodeRef :=
  match segs with
  | [] => some ⟨n.name, curPath⟩
  | s :: rest =>
    match n.children.find? (fun c => c.name == s) with
    | some c => findByPathRef rest c (childPath curPath s)
    | none => none

/-- One mask entry `{ value, children }`; either field may be absent. -/
structure MaskEntry where
  value : Option Bool
  children : Option Bool
deriving DecidableEq, Repr

/-- A mask: a plain-object map from slash-joined path strings to
entries (absent property = `none`). -/
abbrev Mask := String → Option MaskEntry

/-- Truthiness of `maskItem?.children` for an optional entry. -/
def entryChildrenTruthy (o : Option MaskEntry) : Bool :=
  match o with
  | some e => e.children == some true
  | none => false

/-- The inner ancestor walk of `_isPathActive`: for `i` from `0` to
`arr.length - 1`, test whether the mask entry at the slash-joined prefix
`arr[0..i]` has truthy `children`. -/
def ancestorWalk (m : Mask) (arr : List String) : Bool :=
  (List.range arr.length).any
    (fun i => entryChildrenTruthy (m (String.intercalate "/" (arr.take (i + 1)))))

/-- One candidate path array's check inside `_isPathActive`: if a mask
entry exists at the exact joined path and its `value` is not exactly
`false`, the candidate is active; otherwise the ancestor walk decides. -/
def candidateActive (m : Mask) (arr : List String) : Bool :=
  match m (String.intercalate "/" arr) with
  | some e => if e.value != some false then true else ancestorWalk m arr
  | none => ancestorWalk m arr

/-- `DefaultAnimBinder._isPathActive`: with no mask installed every path
is active; otherwise the literal entity path is checked and, when the
graph root's name differs from the path's first segment, also the
alternate array with the root name substituted for the first segment;
the path is active when any candidate is. -/
def isPathActive (graphName : String) (mask : Option Mask) (entityPath : List String) : Bool :=
  match mask with
  | none => true
  | some m =>
    let arrays :=
      if entityPath.head? = some graphName then [entityPath]
      else [entityPath, graphName :: entityPath.tail]
    arrays.any (fun arr => candidateActive m arr)

/-- Modelled from the spec: the Path Codec `encode` over an
already-joined entity-path string — the canonical key is the entity
path, the component kind and the property name joined by `/`. -/
def encodeStr (entityPath : String) (component : String) (propertyPath : String) : String :=
  entityPath ++ "/" ++ component ++ "/" ++ propertyPath

/-- Modelled from the spec: the Path Codec `encode` over entity-path
segments (an empty segment list yields an empty leading placeholder). -/
def encodePath (segs : List String) (component : String) (propertyPath : String) : String :=
  encodeStr (String.intercalate "/" segs) component propertyPath

/-- A caller-supplied animation path: entity-path segments, a component
kind tag and a property name. -/
structure AnimPath where
  entityPath : List String
  component : String
  propertyPath : String
deriving DecidableEq, Repr

/-- Canonical cache key of a path, as computed at the top of `resolve`. -/
def pathKey (p : AnimPath) : String :=
  encodePath p.entityPath p.component p.propertyPath

/-- `path.entityPath[path.entityPath.length - 1] || ""`: the last
segment, or the empty string for an empty path. -/
def lastSegD (p : AnimPath) : String :=
  (p.entityPath.getLast?).getD ""

/-- The canonical fallback form used by the diagnostics counter in
`findNode`: `encode(lastSegment, 'graph', propertyPath)`. -/
def fallbackKey (p : AnimPath) : String :=
  encodeStr (lastSegD p) "graph" p.propertyPath

/-- A morph instance attached to a mesh instance: its identity and the
number of morph targets of its morph (`morphInstance.morph._targets.length`). -/
structure MorphInst where
  uid : Nat
  targetsLen : Nat
deriving DecidableEq, Repr

/-- A mesh instance as the `weights` / `materialTexture` handlers see
it: its identity, the name of the node it is attached to
(`meshInstance.node.name`) and its optional morph instance. -/
structure MeshInstance where
  uid : Nat
  nodeName : String
  morphInstance : Option MorphInst
deriving DecidableEq, Repr

/-- The mutation closure captured by a created target, identified by the
handler kind and the data fixed at creation time. -/
inductive TargetFunc where
  | setLocalPosition : String → TargetFunc
  | setLocalRotation : String → TargetFunc
  | setLocalScale : String → TargetFunc
  | setWeights : List Nat → TargetFunc
  | setMaterialTexture : Nat → TargetFunc
deriving DecidableEq, Repr

/-- An `AnimTarget` produced by `DefaultAnimBinder.createAnimTarget`:
the mutation function, the value-shape tag, the expected component
count, the canonical target path, and a creation stamp `uid` modelling
JavaScript object identity (each `new AnimTarget` is a fresh object). -/
structure AnimTarget where
  func : TargetFunc
  ttype : String
  valueCount : Nat
  targetPath : String
  uid : Nat
deriving DecidableEq, Repr

/-- `DefaultAnimBinder.createAnimTarget`: encodes the node path with the
handler's component type (`'entity'` when none is given) and wraps the
mutation function. -/
def createAnimTarget (func : TargetFunc) (ttype : String) (valueCount : Nat)
    (nodePath : String) (propertyPath : String) (componentType : Option String)
    (uid : Nat) : AnimTarget :=
  { func := func, ttype := ttype, valueCount := valueCount,
    targetPath := encodeStr nodePath (componentType.getD "entity") propertyPath,
    uid := uid }

/-- The `weights` handler's collection loop: keep the morph instance of
every mesh instance whose node name equals the resolved node's name. -/
def matchingMorphs (mis : List MeshInstance) (nodeName : String) : List MorphInst :=
  mis.filterMap (fun mi => if mi.nodeName == nodeName then mi.morphInstance else none)

/-- One `setWeight(index, value)` effect: (morph-instance uid, weight
index, value written). -/
abbrev WeightOp := Nat × Nat × Int

/-- Effect list of the `weights` target's mutation closure: for each
input index `i` (outer loop, starting at `i0`), for each captured morph
instance `j` (inner loop), `morphInstances[j].setWeight(i, value[i])`. -/
def weightOps (morphs : List Nat) : List Int → Nat → List WeightOp
  | [], _ => []
  | v :: rest, i0 => morphs.map (fun m => (m, i0, v)) ++ weightOps morphs rest (i0 + 1)

/-- Replay a list of `setWeight` effects over a weight store indexed by
(morph-instance uid, weight index); later writes overwrite earlier. -/
def applyOps (w : Nat → Nat → Int) : List WeightOp → Nat → Nat → Int
  | [] => w
  | (m, i, v) :: rest =>
    applyOps (fun a b => if a = m ∧ b = i then v else w a b) rest

/-- Invoking the `weights` target's closure with an input vector,
observed as the resulting weight store. -/
def invokeWeights (morphs : List Nat) (value : List Int) (w : Nat → Nat → Int) :
    Nat → Nat → Int :=
  applyOps w (weightOps morphs value 0)

/-- The binder's construction-time configuration: the bound graph, the
installed mask, the flat name index built by `flatten`, and (modelled
from the spec) the mesh/material collaborator enumerating the mesh
instances attached to a node, keyed by node path. -/
structure Binder where
  graph : GraphNode
  mask : Option Mask
  nodes : String → Option NodeRef
  meshInstances : String → Option (List MeshInstance)

/-- The `DefaultAnimBinder` constructor: caches the graph, installs the
mask, and builds the flat name index by pre-order `flatten`. -/
def mkBinder (g : GraphNode) (mask : Option Mask)
    (mesh : String → Option (List MeshInstance)) : Binder :=
  { graph := g, mask := mask, nodes := buildNodes (preorderRefs g), meshInstances := mesh }

/-- `assignMask`: wholesale replacement of the mask reference. -/
def assignMask (b : Binder) (mask : Option Mask) : Binder :=
  { b with mask := mask }

/-- The binder's mutable state: the target cache, the per-node-path
reference-count table, the active node list, the diagnostics counter
table `visitedFallbackGraphPaths`, the cumulative number of
`console.warn` diagnostics emitted, and a fresh-object counter stamping
each created `AnimTarget`. -/
structure BState where
  targetCache : String → Option AnimTarget
  nodeCounts : String → JsNum
  activeNodes : List NodeRef
  visited : String → JsNum
  warnings : Nat
  nextUid : Nat

/-- Constructor-time state: every table empty, no active nodes. -/
def initState : BState :=
  { targetCache := fun _ => none, nodeCounts := fun _ => JsNum.undef,
    activeNodes := [], visited := fun _ => JsNum.undef, warnings := 0, nextUid := 0 }

/-- `DefaultAnimBinder.findNode`: reject masked-out paths, attempt exact
traversal via `findByPath`, then fall back to the flat name index by
last segment; the diagnostics block runs on every fallback, warning
exactly when the stored counter for the canonical fallback form reads
`1`, then setting an unfinite counter to `0` and incrementing a finite
one. -/
def findNode (b : Binder) (s : BState) (p : AnimPath) : Option NodeRef × BState :=
  if isPathActive b.graph.name b.mask p.entityPath = false then (none, s)
  else
    match findByPathRef p.entityPath b.graph b.graph.name with
    | some node => (some node, s)
    | none =>
      let nodeOpt := b.nodes (lastSegD p)
      let f := fallbackKey p
      let warned := if s.visited f = JsNum.num 1 then 1 else 0
      let newVal := if (s.visited f).isFiniteJs then (s.visited f).jsIncr else JsNum.num 0
      (nodeOpt,
       { s with visited := fun k => if k = f then newVal else s.visited k,
                warnings := s.warnings + warned })

/-- The handler registry dispatch `this.handlers[path.propertyPath]`
followed by the handler call (no entry or a `null` handler result both
yield `none`, exactly as the two separate `null` checks in `resolve`). -/
def runHandler (b : Binder) (prop : String) (node : NodeRef) (uid : Nat) :
    Option AnimTarget :=
  if prop = "localPosition" then
    some (createAnimTarget (.setLocalPosition node.path) "vector" 3 node.path
      "localPosition" none uid)
  else if prop = "localRotation" then
    some (createAnimTarget (.setLocalRotation node.path) "quaternion" 4 node.path
      "localRotation" none uid)
  else if prop = "localScale" then
    some (createAnimTarget (.setLocalScale node.path) "vector" 3 node.path
      "localScale" none uid)
  else if prop = "weights" then
    match b.meshInstances node.path with
    | none => none
    | some mis =>
      match matchingMorphs mis node.name with
      | [] => none
      | m :: _ =>
        some (createAnimTarget (.setWeights ((matchingMorphs mis node.name).map (·.uid)))
          "vector" m.targetsLen node.path "weights" none uid)
  else if prop = "materialTexture" then
    match b.meshInstances node.path with
    | none => none
    | some mis =>
      match mis.find? (fun mi => mi.nodeName == node.name) with
      | none => none
      | some mi =>
        some (createAnimTarget (.setMaterialTexture mi.uid) "vector" 1 node.path
          "materialTexture" (some "material") uid)
  else none

/-- `DefaultAnimBinder.resolve`: cache hit returns the cached target
unchanged; otherwise find the node, dispatch the handler, cache the new
target under the canonical key and bump the node's reference count,
inserting a first-time node at the end of the active list. -/
def resolve (b : Binder) (s : BState) (p : AnimPath) : Option AnimTarget × BState :=
  match s.targetCache (pathKey p) with
  | some t => (some t, s)
  | none =>
    match findNode b s p with
    | (none, s1) => (none, s1)
    | (some node, s1) =>
      match runHandler b p.propertyPath node s1.nextUid with
      | none => (none, s1)
      | some t =>
        let s2 : BState :=
          { s1 with
            targetCache := fun k => if k = pathKey p then some t else s1.targetCache k,
            nextUid := s1.nextUid + 1 }
        (some t,
         if (s2.nodeCounts node.path).truthy then
           { s2 with nodeCounts := fun k =>
               if k = node.path then (s2.nodeCounts node.path).jsIncr
               else s2.nodeCounts k }
         else
           { s2 with activeNodes := s2.activeNodes ++ [node],
                     nodeCounts := fun k =>
                       if k = node.path then JsNum.num 1 else s2.nodeCounts k })

/-- `DefaultAnimBinder.unresolve`: a no-op unless the component kind is
exactly `"graph"`; then the node is looked up in the flat name index by
last segment — reading `.path` of a missing entry throws a `TypeError`,
modelled as `none`.  The count is decremented (`undefined--` stores
`NaN`); when the stored value is `=== 0`, the removal runs
`activeNodes.indexOf(node.node)`: the flat index stores graph nodes
directly, so `node.node` is `undefined`, `indexOf` returns `-1`, the
guarded swap writes to array index `-1` (a stray property) and `pop()`
discards the last element of the active list. -/
def unresolve (b : Binder) (s : BState) (p : AnimPath) : Option BState :=
  if p.component ≠ "graph" then some s
  else
    match b.nodes (lastSegD p) with
    | none => none
    | some node =>
      let c := (s.nodeCounts node.path).jsDecr
      let counts := fun k => if k = node.path then c else s.nodeCounts k
      if c.isZero then
        some { s with nodeCounts := counts, activeNodes := s.activeNodes.dropLast }
      else
        some { s with nodeCounts := counts }

/-- `DefaultAnimBinder.update`: iterates the active node list calling
`_dirtifyLocal` on each entry; observed as the list of dirtied node
paths (`deltaTime` is accepted and unused). -/
def update (s : BState) (_deltaTime : Int) : List String :=
  s.activeNodes.map (fun nd => nd.path)

/-- Iterated direct `findNode` calls with the same path, threading the
state (used to observe the diagnostics counter across repeated fallback
uses). -/
def findNodeIter (b : Binder) (p : AnimPath) : Nat → BState → BState
  | 0, s => s
  | k + 1, s => (findNode b (findNodeIter b p k s) p).2


/-- The post-state of a cache-missing, node-finding, handler-succeeding
`resolve` call that created the target `t` for node `n`: the success arm
of `resolve`, written out. -/
def resolvePost (b : Binder) (s0 : BState) (p : AnimPath) (n : NodeRef) (t : AnimTarget) :
    BState :=
  let s1 := (findNode b s0 p).2
  let s2 : BState :=
    { s1 with targetCache := fun k => if k = pathKey p then some t else s1.targetCache k,
              nextUid := s1.nextUid + 1 }
  if (s2.nodeCounts n.path).truthy then
    { s2 with nodeCounts := fun k =>
        if k = n.path then (s2.nodeCounts n.path).jsIncr else s2.nodeCounts k }
  else
    { s2 with activeNodes := s2.activeNodes ++ [n],
              nodeCounts := fun k =>
                if k = n.path then JsNum.num 1 else s2.nodeCounts k }

/-- A mesh/material environment with no mesh instances anywhere. -/
def noMesh : String → Option (List MeshInstance) := fun _ => none

/-- Mask with a single subtree-inclusion entry `A/B : { children: true }`. -/
def maskC5 : Mask := fun k =>
  if k = "A/B" then some { value := none, children := some true } else none

/-- Graph `A -> B -> C`. -/
def graphC5 : GraphNode := .mk "A" [.mk "B" [.mk "C" []]]

/-- Mask with the explicit exclusion `A/B : { value: false }` under an
ancestor `A : { children: true }`. -/
def maskC4 : Mask := fun k =>
  if k = "A/B" then some { value := some false, children := none }
  else if k = "A" then some { value := none, children := some true }
  else none

/-- Two-node graph `A -> B` bound with no mask and no mesh instances. -/
def bWit : Binder := mkBinder (.mk "A" [.mk "B" []]) none noMesh

/-- Graph-component path addressing node `B` of `bWit` by exact traversal. -/
def pWit : AnimPath :=
  { entityPath := ["B"], component := "graph", propertyPath := "localPosition" }

/-- Graph `R -> (A -> B, C -> B)` with two distinct nodes named `B`. -/
def gDup : GraphNode := .mk "R" [.mk "A" [.mk "B" []], .mk "C" [.mk "B" []]]

/-- Binder over the duplicate-name graph. -/
def bDup : Binder := mkBinder gDup none noMesh

/-- Path addressing the first `B` (under `A`) by exact traversal; its
last segment resolves in the flat name index to the other `B`. -/
def pDup : AnimPath :=
  { entityPath := ["A", "B"], component := "graph", propertyPath := "localPosition" }

/-- State after `resolve(pDup)` immediately followed by `unresolve(pDup)`
on a fresh `bDup` binder. -/
def sDup : BState :=
  (unresolve bDup (resolve bDup initState pDup).2 pDup).getD initState

/-- Three-node graph `R -> (A, B)` bound with no mask. -/
def bC2 : Binder := mkBinder (.mk "R" [.mk "A" [], .mk "B" []]) none noMesh

/-- Graph-component path addressing node `A` of `bC2`. -/
def pC2a : AnimPath :=
  { entityPath := ["A"], component := "graph", propertyPath := "localPosition" }

/-- Graph-component path addressing node `B` of `bC2`. -/
def pC2b : AnimPath :=
  { entityPath := ["B"], component := "graph", propertyPath := "localPosition" }

/-- State after the paired sequence `resolve(pC2a); resolve(pC2b);
unresolve(pC2a)` on a fresh `bC2` binder. -/
def sC2 : BState :=
  (unresolve bC2 (resolve bC2 (resolve bC2 initState pC2a).2 pC2b).2 pC2a).getD initState

/-- Path whose exact traversal fails on `bWit` (no child `X`) but whose
last segment `B` resolves through the flat name index fallback. -/
def pC6 : AnimPath :=
  { entityPath := ["X", "B"], component := "graph", propertyPath := "localPosition" }

/-- A mesh instance attached to node `N` carrying one morph instance
(uid 7) whose morph has 2 morph targets. -/
def miC9 : MeshInstance := { uid := 0, nodeName := "N", morphInstance := some ⟨7, 2⟩ }

/-- Single-node graph `N` whose node carries `miC9`. -/
def bC9 : Binder :=
  mkBinder (.mk "N" []) none (fun p => if p = "N" then some [miC9] else none)

/-- The resolved root node of `bC9`. -/
def nodeC9 : NodeRef := { name := "N", path := "N" }

/-- Path binding the `weights` property on the root of `bC9`. -/
def pC9 : AnimPath := { entityPath := [], component := "graph", propertyPath := "weights" }

/-- Path with no matching node and no flat-name fallback in `bWit`. -/
def pC8 : AnimPath :=
  { entityPath := ["Z"], component := "graph", propertyPath := "localPosition" }

/-- The scratch graph-component path whose last segment `Z` names no
node of `bWit`, so `unresolve` dereferences `undefined`. -/
def pC7 : AnimPath := { entityPath := ["Z"], component := "graph", propertyPath := "x" }

/-- The target created by the first successful `resolve(pWit)` on a
fresh `bWit` binder. -/
def tWit : AnimTarget :=
  { func := .setLocalPosition "A/B", ttype := "vector", valueCount := 3,
    targetPath := "A/B/entity/localPosition", uid := 0 }

/-- A graph-component path never resolved on `bWit` whose last segment
`B` does name a node, so `unresolve` completes (count goes `NaN`). -/
def pC7ok : AnimPath := { entityPath := ["B"], component := "graph", propertyPath := "x" }

theorem findNode_preserves (b : Binder) (s : BState) (p : AnimPath) :
    ((findNode b s p).2).targetCache = s.targetCache
    ∧ ((findNode b s p).2).nodeCounts = s.nodeCounts
    ∧ ((findNode b s p).2).activeNodes = s.activeNodes
    ∧ ((findNode b s p).2).nextUid = s.nextUid := by
  unfold findNode
  split
  · exact ⟨rfl, rfl, rfl, rfl⟩
  · split
    · exact ⟨rfl, rfl, rfl, rfl⟩
    · exact ⟨rfl, rfl, rfl, rfl⟩

theorem resolve_cached (b : Binder) (s : BState) (p : AnimPath) (t : AnimTarget)
    (h : s.targetCache (pathKey p) = some t) :
    resolve b s p = (some t, s) := by
  unfold resolve
  rw [h]

theorem resolve_eq (b : Binder) (s0 : BState) (p : AnimPath) :
    resolve b s0 p =
      match s0.targetCache (pathKey p) with
      | some t => (some t, s0)
      | none =>
        match (findNode b s0 p).1 with
        | none => (none, (findNode b s0 p).2)
        | some n =>
          match runHandler b p.propertyPath n ((findNode b s0 p).2).nextUid with
          | none => (none, (findNode b s0 p).2)
          | some t => (some t, resolvePost b s0 p n t) := by
  unfold resolve resolvePost
  cases hc : s0.targetCache (pathKey p) with
  | some t => rfl
  | none =>
    cases hfn : findNode b s0 p with
    | mk nodeOpt s1 =>
      cases nodeOpt with
      | none => rfl
      | some n =>
        cases hh : runHandler b p.propertyPath n s1.nextUid with
        | none => rfl
        | some t => rfl

theorem findNode_inactive (b : Binder) (s : BState) (p : AnimPath)
    (ha : isPathActive b.graph.name b.mask p.entityPath = false) :
    findNode b s p = (none, s) := by
  unfold findNode
  rw [ha]
  simp

theorem findNode_active_exact (b : Binder) (s : BState) (p : AnimPath) (node : NodeRef)
    (ha : isPathActive b.graph.name b.mask p.entityPath = true)
    (he : findByPathRef p.entityPath b.graph b.graph.name = some node) :
    findNode b s p = (some node, s) := by
  unfold findNode
  rw [ha, he]
  simp

theorem findNode_fallback_fst (b : Binder) (s : BState) (p : AnimPath)
    (ha : isPathActive b.graph.name b.mask p.entityPath = true)
    (he : findByPathRef p.entityPath b.graph b.graph.name = none) :
    (findNode b s p).1 = b.nodes (lastSegD p) := by
  unfold findNode
  rw [ha, he]
  simp

theorem findNode_fallback_counter (b : Binder) (s : BState) (p : AnimPath)
    (ha : isPathActive b.graph.name b.mask p.entityPath = true)
    (he : findByPathRef p.entityPath b.graph b.graph.name = none) :
    ((findNode b s p).2).visited (fallbackKey p)
      = (if (s.visited (fallbackKey p)).isFiniteJs
          then (s.visited (fallbackKey p)).jsIncr else JsNum.num 0)
    ∧ ((findNode b s p).2).warnings
      = s.warnings + (if s.visited (fallbackKey p) = JsNum.num 1 then 1 else 0) := by
  unfold findNode
  rw [ha, he]
  simp

theorem resolvePost_cache (b : Binder) (s0 : BState) (p : AnimPath) (n : NodeRef)
    (t : AnimTarget) :
    (resolvePost b s0 p n t).targetCache (pathKey p) = some t := by
  unfold resolvePost
  dsimp only
  split <;> simp

theorem resolve_cache_after (b : Binder) (s0 : BState) (p : AnimPath) (t : AnimTarget)
    (h : (resolve b s0 p).1 = some t) :
    ((resolve b s0 p).2).targetCache (pathKey p) = some t := by
  rw [resolve_eq] at h ⊢
  cases hc : s0.targetCache (pathKey p) with
  | some t0 =>
    rw [hc] at h
    dsimp only at h ⊢
    rw [hc]
    exact h
  | none =>
    rw [hc] at h
    dsimp only at h ⊢
    cases hfn : (findNode b s0 p).1 with
    | none => rw [hfn] at h; simp at h
    | some n =>
      rw [hfn] at h
      dsimp only at h ⊢
      cases hh : runHandler b p.propertyPath n ((findNode b s0 p).2).nextUid with
      | none => rw [hh] at h; simp at h
      | some t1 =>
        rw [hh] at h
        dsimp only at h ⊢
        simp only [Option.some.injEq] at h
        subst h
        exact resolvePost_cache b s0 p n _

/-- C3: two successive `resolve` calls with the same path under an
unchanged graph and mask: when the first call returns a target, the
second call returns the identical cached target instance and leaves the
binder state (reference counts, active node list, cache) unchanged. -/
theorem C3_resolve_idempotent (b : Binder) (s0 : BState) (p : AnimPath) (t : AnimTarget)
    (h : (resolve b s0 p).1 = some t) :
    resolve b (resolve b s0 p).2 p = (some t, (resolve b s0 p).2) :=
  resolve_cached b (resolve b s0 p).2 p t (resolve_cache_after b s0 p t h)

/-- C3 witness: on the two-node graph `A -> B`, resolving
`B/graph/localPosition` succeeds, and the immediate second resolve
returns the same target with the state untouched. -/
theorem C3_witness :
    (resolve bWit initState pWit).1 = some tWit
    ∧ resolve bWit (resolve bWit initState pWit).2 pWit
        = (some tWit, (resolve bWit initState pWit).2) :=
  ⟨by decide, C3_resolve_idempotent bWit initState pWit tWit (by decide)⟩

/-- C5: with the mask holding only `A/B : { children: true }` and the
graph `A -> B -> C` (root named `A`), the path `A/B/C` is evaluated as
active by the mask check although no explicit `A/B/C` entry exists,
while the sibling path `A/X` is evaluated as inactive. -/
theorem C5_mask_subtree :
    isPathActive graphC5.name (some maskC5) ["A", "B", "C"] = true
    ∧ isPathActive graphC5.name (some maskC5) ["A", "X"] = false := by
  decide

/-- C4 counterexample: with mask `{ A/B: { value: false }, A: { children:
true } }` and root named `A`, the path `A/B` is evaluated as ACTIVE, not
inactive as the claim states: the ancestor walk still fires. -/
theorem C4_counterexample :
    isPathActive "A" (some maskC4) ["A", "B"] = true := by
  decide

/-- C4 (amended): an explicit `value: false` entry at the exact path does
not override an ancestor entry with `children: true` — whenever any
prefix of the literal entity path (the path itself included) has a mask
entry with truthy `children`, the path is evaluated as active,
regardless of the exact entry's `value`. -/
theorem C4_amended (m : Mask) (graphName : String) (path : List String) (i : Nat)
    (hi : i < path.length)
    (hc : entryChildrenTruthy (m (String.intercalate "/" (path.take (i + 1)))) = true) :
    isPathActive graphName (some m) path = true := by
  have hwalk : ancestorWalk m path = true := by
    unfold ancestorWalk
    rw [List.any_eq_true]
    exact ⟨i, List.mem_range.mpr hi, hc⟩
  have hcand : candidateActive m path = true := by
    unfold candidateActive
    cases m (String.intercalate "/" path) with
    | none => exact hwalk
    | some e =>
      cases hb : (e.value != some false) with
      | true => simp [hb]
      | false => simp [hb, hwalk]
  unfold isPathActive
  dsimp only
  split
  · simp [hcand]
  · simp [hcand]

/-- C4 witness: the amended rule applied to the counterexample mask. -/
theorem C4_witness :
    isPathActive "A" (some maskC4) ["A", "B"] = true :=
  C4_amended maskC4 "A" ["A", "B"] 0 (by decide) (by decide)

/-- C7 counterexample: on the graph `A -> B`, unresolving the graph path
`Z/graph/x` whose last segment `Z` names no node in the flat index reads
`.path` of `undefined` and throws — modelled as `none`, refuting "never
crashes for any path". -/
theorem C7_counterexample :
    (unresolve bWit initState pC7).isSome = false := by
  decide

/-- C7 (amended): `unresolve` completes without error for every path
whose component kind is not `"graph"` (a no-op) and for every `"graph"`
path whose last segment (or `""` for an empty path) names a node in the
flat index — including never-resolved or over-unresolved paths, whose
count decrements to `NaN` or below zero without error; only a `"graph"`
path whose last segment misses the flat name index throws. -/
theorem C7_amended (b : Binder) (s : BState) (p : AnimPath)
    (h : p.component ≠ "graph" ∨ (b.nodes (lastSegD p)).isSome = true) :
    (unresolve b s p).isSome = true := by
  unfold unresolve
  by_cases hcomp : p.component = "graph"
  · rw [hcomp]
    simp only [ne_eq, not_true_eq_false, if_false]
    cases h with
    | inl h' => exact absurd hcomp h'
    | inr h' =>
      cases hn : b.nodes (lastSegD p) with
      | none => rw [hn] at h'; simp at h'
      | some node =>
        dsimp only
        split <;> simp
  · simp [hcomp]

/-- C7 witness: unresolving the never-resolved graph path `B/graph/x`
on `A -> B` completes (the count merely becomes `NaN`). -/
theorem C7_witness :
    (unresolve bWit initState pC7ok).isSome = true :=
  C7_amended bWit initState pC7ok (Or.inr (by decide))

/-- C8: a path that is not cached, matches no node by exact traversal
and whose last segment matches no flat-index name: `resolve` returns
absent, creates no cache entry (the whole cache is untouched), and
leaves the reference-count table and active node list unchanged, so a
later retry is not blocked by negative caching. -/
theorem C8_unresolvable (b : Binder) (s : BState) (p : AnimPath)
    (hc : s.targetCache (pathKey p) = none)
    (he : findByPathRef p.entityPath b.graph b.graph.name = none)
    (hf : b.nodes (lastSegD p) = none) :
    (resolve b s p).1 = none
    ∧ ((resolve b s p).2).targetCache = s.targetCache
    ∧ ((resolve b s p).2).nodeCounts = s.nodeCounts
    ∧ ((resolve b s p).2).activeNodes = s.activeNodes := by
  have hfn : (findNode b s p).1 = none := by
    cases hA : isPathActive b.graph.name b.mask p.entityPath
    · rw [findNode_inactive b s p hA]
    · rw [findNode_fallback_fst b s p hA he, hf]
  have hpres := findNode_preserves b s p
  rw [resolve_eq, hc]
  dsimp only
  rw [hfn]
  exact ⟨rfl, hpres.1, hpres.2.1, hpres.2.2.1⟩

/-- C8 witness: the unresolvable path `Z/graph/localPosition` on the
graph `A -> B`. -/
theorem C8_witness :
    (resolve bWit initState pC8).1 = none
    ∧ ((resolve bWit initState pC8).2).targetCache = initState.targetCache
    ∧ ((resolve bWit initState pC8).2).nodeCounts = initState.nodeCounts
    ∧ ((resolve bWit initState pC8).2).activeNodes = initState.activeNodes :=
  C8_unresolvable bWit initState pC8 rfl (by decide) (by decide)

/-- C2: evaluation of the failing sequence — on graph `R -> (A, B)`,
after `resolve(A)`, `resolve(B)` (both successful) and the paired
`unresolve(A)`, node `A` has count `0` yet remains on the active list,
node `B` has count `1` yet was removed (the swap-remove popped the last
element), and `update` dirtifies exactly the count-zero node `A`. -/
theorem C2_active_list_bug :
    (resolve bC2 initState pC2a).1.isSome = true
    ∧ (resolve bC2 (resolve bC2 initState pC2a).2 pC2b).1.isSome = true
    ∧ sC2.nodeCounts "R/A" = JsNum.num 0
    ∧ sC2.nodeCounts "R/B" = JsNum.num 1
    ∧ sC2.activeNodes = [{ name := "A", path := "R/A" }]
    ∧ update sC2 0 = ["R/A"] := by
  decide

theorem JsNum.falsy_toCount (x : JsNum) (h : x.truthy = false) : x.toCount = 0 := by
  cases x <;> simp_all [JsNum.truthy, JsNum.toCount]

theorem JsNum.truthy_incr_decr (x : JsNum) (h : x.truthy = true) :
    (x.jsIncr).jsDecr = x ∧ ((x.jsIncr).jsDecr).isZero = false := by
  cases x with
  | undef => simp [JsNum.truthy] at h
  | nan => simp [JsNum.truthy] at h
  | num k =>
    constructor
    · simp [JsNum.jsIncr, JsNum.jsDecr]
    · simp only [JsNum.jsIncr, JsNum.jsDecr, JsNum.isZero, add_sub_cancel_right]
      simpa [JsNum.truthy] using h

theorem JsNum.falsy_cases (x : JsNum) (h : x.truthy = false) (hn : x ≠ JsNum.nan) :
    x = JsNum.undef ∨ x = JsNum.num 0 := by
  cases x with
  | undef => exact Or.inl rfl
  | nan => exact absurd rfl hn
  | num k =>
    right
    have hk : k = 0 := by simpa [JsNum.truthy] using h
    rw [hk]

theorem unresolve_graph (b : Binder) (s : BState) (p : AnimPath) (n : NodeRef)
    (h1 : p.component = "graph") (h5 : b.nodes (lastSegD p) = some n) :
    unresolve b s p =
      (if ((s.nodeCounts n.path).jsDecr).isZero then
        some { s with
          nodeCounts := fun k => if k = n.path then (s.nodeCounts n.path).jsDecr
                                 else s.nodeCounts k,
          activeNodes := s.activeNodes.dropLast }
      else
        some { s with
          nodeCounts := fun k => if k = n.path then (s.nodeCounts n.path).jsDecr
                                 else s.nodeCounts k }) := by
  unfold unresolve
  rw [h1]
  simp only [ne_eq, not_true_eq_false, if_false]
  rw [h5]

theorem resolvePost_truthy (b : Binder) (s0 : BState) (p : AnimPath) (n : NodeRef)
    (t : AnimTarget)
    (htr : (((findNode b s0 p).2).nodeCounts n.path).truthy = true) :
    (resolvePost b s0 p n t).activeNodes = ((findNode b s0 p).2).activeNodes
    ∧ ∀ q, (resolvePost b s0 p n t).nodeCounts q
        = (if q = n.path then (((findNode b s0 p).2).nodeCounts n.path).jsIncr
           else ((findNode b s0 p).2).nodeCounts q) := by
  unfold resolvePost
  dsimp only
  rw [htr]
  exact ⟨rfl, fun q => rfl⟩

theorem resolvePost_falsy (b : Binder) (s0 : BState) (p : AnimPath) (n : NodeRef)
    (t : AnimTarget)
    (htr : (((findNode b s0 p).2).nodeCounts n.path).truthy = false) :
    (resolvePost b s0 p n t).activeNodes = ((findNode b s0 p).2).activeNodes ++ [n]
    ∧ ∀ q, (resolvePost b s0 p n t).nodeCounts q
        = (if q = n.path then JsNum.num 1
           else ((findNode b s0 p).2).nodeCounts q) := by
  unfold resolvePost
  dsimp only
  rw [htr]
  exact ⟨rfl, fun q => rfl⟩

/-- C1 counterexample: on the duplicate-name graph `R -> (A -> B, C -> B)`,
`resolve` of `A/B` (graph component, fresh cache) binds the node at
`R/A/B`, but the immediate `unresolve` consults the flat name index,
which maps `B` to the other node `R/C/B`, so neither the reference-count
table nor the active node list returns to its pre-resolve state. -/
theorem C1_counterexample :
    pDup.component = "graph"
    ∧ initState.targetCache (pathKey pDup) = none
    ∧ (resolve bDup initState pDup).1.isSome = true
    ∧ (unresolve bDup (resolve bDup initState pDup).2 pDup).isSome = true
    ∧ sDup.activeNodes ≠ initState.activeNodes
    ∧ sDup.nodeCounts "R/A/B" ≠ initState.nodeCounts "R/A/B" := by
  decide

/-- C1 (amended): for a `"graph"`-component path whose successful,
cache-entry-creating `resolve` bound the very node that the flat name
index holds for the path's last segment, and whose prior count is not
`NaN`, an immediate `unresolve` restores every node's reference-count
value (an absent entry counting as zero — the entry itself may afterwards
exist storing `0`) and restores the active node list exactly.  Without
the flat-index agreement (duplicate node names) the state is not
restored, as the counterexample shows. -/
theorem C1_amended (b : Binder) (s0 : BState) (p : AnimPath) (n : NodeRef) (t : AnimTarget)
    (h1 : p.component = "graph")
    (h2 : s0.targetCache (pathKey p) = none)
    (h3 : (findNode b s0 p).1 = some n)
    (h4 : runHandler b p.propertyPath n ((findNode b s0 p).2).nextUid = some t)
    (h5 : b.nodes (lastSegD p) = some n)
    (h6 : s0.nodeCounts n.path ≠ JsNum.nan) :
    ∃ s2, unresolve b (resolve b s0 p).2 p = some s2
      ∧ s2.activeNodes = s0.activeNodes
      ∧ (∀ q, (s2.nodeCounts q).toCount = (s0.nodeCounts q).toCount)
      ∧ (∀ q, q ≠ n.path → s2.nodeCounts q = s0.nodeCounts q)
      ∧ (s2.nodeCounts n.path = s0.nodeCounts n.path
         ∨ (s2.nodeCounts n.path = JsNum.num 0
            ∧ (s0.nodeCounts n.path = JsNum.undef ∨ s0.nodeCounts n.path = JsNum.num 0))) := by
  obtain ⟨hpc, hpn, hpa, hpu⟩ := findNode_preserves b s0 p
  have hres : (resolve b s0 p).2 = resolvePost b s0 p n t := by
    rw [resolve_eq, h2]
    dsimp only
    rw [h3]
    dsimp only
    rw [h4]
  rw [hres]
  cases htr : (((findNode b s0 p).2).nodeCounts n.path).truthy with
  | false =>
    obtain ⟨hact, hcnt⟩ := resolvePost_falsy b s0 p n t htr
    have hc1 : (resolvePost b s0 p n t).nodeCounts n.path = JsNum.num 1 := by
      rw [hcnt]
      simp
    rw [unresolve_graph b _ p n h1 h5]
    have hzp : (((resolvePost b s0 p n t).nodeCounts n.path).jsDecr).isZero = true := by
      rw [hc1]
      decide
    rw [if_pos hzp]
    have h0 : (s0.nodeCounts n.path).truthy = false := by
      rw [← hpn]
      exact htr
    refine ⟨_, rfl, ?_, ?_, ?_, ?_⟩
    · show ((resolvePost b s0 p n t).activeNodes).dropLast = s0.activeNodes
      rw [hact, hpa]
      simp
    · intro q
      show (if q = n.path then ((resolvePost b s0 p n t).nodeCounts n.path).jsDecr
            else (resolvePost b s0 p n t).nodeCounts q).toCount
          = (s0.nodeCounts q).toCount
      by_cases hq : q = n.path
      · subst hq
        rw [if_pos rfl, hc1]
        rw [JsNum.falsy_toCount _ h0]
        decide
      · rw [if_neg hq, hcnt q, if_neg hq, hpn]
    · intro q hq
      show (if q = n.path then ((resolvePost b s0 p n t).nodeCounts n.path).jsDecr
            else (resolvePost b s0 p n t).nodeCounts q)
          = s0.nodeCounts q
      rw [if_neg hq, hcnt q, if_neg hq, hpn]
    · right
      constructor
      · show (if n.path = n.path then ((resolvePost b s0 p n t).nodeCounts n.path).jsDecr
              else (resolvePost b s0 p n t).nodeCounts n.path)
            = JsNum.num 0
        rw [if_pos rfl, hc1]
        decide
      · exact JsNum.falsy_cases _ h0 h6
  | true =>
    obtain ⟨hact, hcnt⟩ := resolvePost_truthy b s0 p n t htr
    obtain ⟨hdec, hnz⟩ := JsNum.truthy_incr_decr _ htr
    have hcn : (resolvePost b s0 p n t).nodeCounts n.path
        = (((findNode b s0 p).2).nodeCounts n.path).jsIncr := by
      rw [hcnt]
      simp
    rw [unresolve_graph b _ p n h1 h5]
    have hzp : (((resolvePost b s0 p n t).nodeCounts n.path).jsDecr).isZero = false := by
      rw [hcn]
      exact hnz
    rw [if_neg (by simp [hzp])]
    refine ⟨_, rfl, ?_, ?_, ?_, ?_⟩
    · show (resolvePost b s0 p n t).activeNodes = s0.activeNodes
      rw [hact, hpa]
    · intro q
      show (if q = n.path then ((resolvePost b s0 p n t).nodeCounts n.path).jsDecr
            else (resolvePost b s0 p n t).nodeCounts q).toCount
          = (s0.nodeCounts q).toCount
      by_cases hq : q = n.path
      · subst hq
        rw [if_pos rfl, hcn, hdec, ← hpn]
      · rw [if_neg hq, hcnt q, if_neg hq, hpn]
    · intro q hq
      show (if q = n.path then ((resolvePost b s0 p n t).nodeCounts n.path).jsDecr
            else (resolvePost b s0 p n t).nodeCounts q)
          = s0.nodeCounts q
      rw [if_neg hq, hcnt q, if_neg hq, hpn]
    · left
      show (if n.path = n.path then ((resolvePost b s0 p n t).nodeCounts n.path).jsDecr
            else (resolvePost b s0 p n t).nodeCounts n.path)
          = s0.nodeCounts n.path
      rw [if_pos rfl, hcn, hdec, ← hpn]

/-- C1 witness: on `A -> B` with unique names, resolving then
unresolving `B/graph/localPosition` restores the counts and the active
list. -/
theorem C1_witness :
    ∃ s2, unresolve bWit (resolve bWit initState pWit).2 pWit = some s2
      ∧ s2.activeNodes = initState.activeNodes
      ∧ (∀ q, (s2.nodeCounts q).toCount = (initState.nodeCounts q).toCount)
      ∧ (∀ q, q ≠ "A/B" → s2.nodeCounts q = initState.nodeCounts q)
      ∧ (s2.nodeCounts "A/B" = initState.nodeCounts "A/B"
         ∨ (s2.nodeCounts "A/B" = JsNum.num 0
            ∧ (initState.nodeCounts "A/B" = JsNum.undef
               ∨ initState.nodeCounts "A/B" = JsNum.num 0))) :=
  C1_amended bWit initState pWit ⟨"B", "A/B"⟩ tWit rfl rfl (by decide) (by decide)
    (by decide) (by decide)

/-- C6 counterexample: on `A -> B`, three direct `findNode` calls for
`X/B` (exact traversal fails, fallback finds `B`) emit ONE warning in
total, not two: the first two uses are silent and only the third
trips the `=== 1` check on the lagging counter. -/
theorem C6_counterexample :
    (findNodeIter bWit pC6 2 initState).warnings = 0
    ∧ (findNodeIter bWit pC6 3 initState).warnings = 1
    ∧ (findNodeIter bWit pC6 4 initState).warnings = 1 := by
  decide

/-- C6 (amended): across repeated fallback `findNode` calls sharing one
canonical fallback form, starting from a fresh counter, the stored
counter after `k` calls reads `k - 1` and exactly one warning is ever
emitted — on the third call (none on the first and second, none after
the third); in particular three uses produce one warning, not two. -/
theorem C6_amended (b : Binder) (p : AnimPath) (s0 : BState) (k : Nat)
    (ha : isPathActive b.graph.name b.mask p.entityPath = true)
    (he : findByPathRef p.entityPath b.graph b.graph.name = none)
    (hv : s0.visited (fallbackKey p) = JsNum.undef) :
    (k = 0 → (findNodeIter b p k s0).visited (fallbackKey p) = JsNum.undef)
    ∧ (1 ≤ k → (findNodeIter b p k s0).visited (fallbackKey p)
        = JsNum.num ((k : Int) - 1))
    ∧ (findNodeIter b p k s0).warnings = s0.warnings + (if 3 ≤ k then 1 else 0) := by
  induction k with
  | zero =>
    refine ⟨fun _ => hv, fun h => absurd h (by omega), ?_⟩
    show s0.warnings = s0.warnings + if 3 ≤ 0 then 1 else 0
    norm_num
  | succ j ih =>
    obtain ⟨ih0, ih1, ihw⟩ := ih
    have hstep := findNode_fallback_counter b (findNodeIter b p j s0) p ha he
    have hiter : findNodeIter b p (j + 1) s0 = (findNode b (findNodeIter b p j s0) p).2 :=
      rfl
    cases j with
    | zero =>
      have hv0 : (findNodeIter b p 0 s0).visited (fallbackKey p) = JsNum.undef := ih0 rfl
      refine ⟨fun h => absurd h (by omega), fun _ => ?_, ?_⟩
      · rw [hiter, hstep.1, hv0]
        decide
      · rw [hiter, hstep.2, hv0, ihw]
        have e1 : (if (3 : Nat) ≤ 0 then (1 : Nat) else 0) = 0 := by norm_num
        have e2 : (if JsNum.undef = JsNum.num 1 then (1 : Nat) else 0) = 0 := by decide
        have e3 : (if (3 : Nat) ≤ 0 + 1 then (1 : Nat) else 0) = 0 := by norm_num
        rw [e1, e2, e3]
    | succ i =>
      have hvj : (findNodeIter b p (i + 1) s0).visited (fallbackKey p)
          = JsNum.num ((i + 1 : Int) - 1) := ih1 (by omega)
      refine ⟨fun h => absurd h (by omega), fun _ => ?_, ?_⟩
      · rw [hiter, hstep.1, hvj]
        simp only [JsNum.isFiniteJs, JsNum.jsIncr, if_true]
        congr 1
        push_cast
        ring
      · rw [hiter, hstep.2, hvj, ihw]
        have hcond : (JsNum.num ((i + 1 : Int) - 1) = JsNum.num 1) ↔ (i : Int) = 1 := by
          constructor
          · intro h
            have := JsNum.num.inj h
            omega
          · intro h
            congr 1
            omega
        by_cases hi : (i : Int) = 1
        · rw [if_pos (hcond.mpr hi)]
          have hi2 : i = 1 := by exact_mod_cast hi
          subst hi2
          norm_num
        · rw [if_neg (fun h => hi (hcond.mp h))]
          have hi2 : i ≠ 1 := fun h => hi (by exact_mod_cast congrArg (Nat.cast : Nat → Int) h)
          by_cases h3 : 3 ≤ i + 1
          · rw [if_pos h3, if_pos (by omega)]
          · rw [if_neg h3, if_neg (by omega)]

/-- C6 witness: five fallback uses of `X/B` on `A -> B` have emitted
exactly one warning. -/
theorem C6_witness :
    (findNodeIter bWit pC6 5 initState).warnings
      = initState.warnings + (if 3 ≤ 5 then 1 else 0) :=
  (C6_amended bWit pC6 initState 5 (by decide) (by decide) (by decide)).2.2

theorem applyOps_no_hit (l : List WeightOp) (a bi : Nat)
    (h : ∀ o ∈ l, ¬(a = o.1 ∧ bi = o.2.1)) :
    ∀ w : Nat → Nat → Int, applyOps w l a bi = w a bi := by
  induction l with
  | nil => intro w; rfl
  | cons o rest ih =>
    intro w
    obtain ⟨m, i, v⟩ := o
    show applyOps (fun x y => if x = m ∧ y = i then v else w x y) rest a bi = w a bi
    rw [ih (fun o ho => h o (List.mem_cons_of_mem _ ho))]
    exact if_neg (h (m, i, v) (List.mem_cons_self _ _))

theorem applyOps_hit (l : List WeightOp) (a bi : Nat) (v : Int)
    (hall : ∀ o ∈ l, a = o.1 → bi = o.2.1 → o.2.2 = v)
    (hmem : ∃ o ∈ l, a = o.1 ∧ bi = o.2.1) :
    ∀ w : Nat → Nat → Int, applyOps w l a bi = v := by
  induction l with
  | nil =>
    obtain ⟨o, ho, _⟩ := hmem
    exact absurd ho (List.not_mem_nil o)
  | cons o rest ih =>
    intro w
    obtain ⟨m, i, vv⟩ := o
    show applyOps (fun x y => if x = m ∧ y = i then vv else w x y) rest a bi = v
    by_cases hrest : ∃ o ∈ rest, a = o.1 ∧ bi = o.2.1
    · exact ih (fun o ho => hall o (List.mem_cons_of_mem _ ho)) hrest _
    · obtain ⟨o2, ho2, hk⟩ := hmem
      rcases List.mem_cons.mp ho2 with rfl | hmem2
      · rw [applyOps_no_hit rest a bi (fun o ho hh => hrest ⟨o, ho, hh⟩)]
        rw [if_pos ⟨hk.1, hk.2⟩]
        exact hall (m, i, vv) (List.mem_cons_self _ _) hk.1 hk.2
      · exact absurd ⟨o2, hmem2, hk⟩ hrest

theorem weightOps_sound (morphs : List Nat) :
    ∀ (value : List Int) (i0 : Nat) (o : WeightOp), o ∈ weightOps morphs value i0 →
      o.1 ∈ morphs ∧ ∃ i, i < value.length ∧ o.2.1 = i0 + i ∧ o.2.2 = value.getD i 0 := by
  intro value
  induction value with
  | nil =>
    intro i0 o ho
    exact absurd ho (by simp [weightOps])
  | cons v rest ih =>
    intro i0 o ho
    rw [weightOps] at ho
    rcases List.mem_append.mp ho with hmap | hrec
    · obtain ⟨m, hm, rfl⟩ := List.mem_map.mp hmap
      exact ⟨hm, 0, by simp, by simp, by simp⟩
    · obtain ⟨h1, i, hi, h2, h3⟩ := ih (i0 + 1) o hrec
      refine ⟨h1, i + 1, by simpa using hi, by omega, ?_⟩
      rw [h3]
      simp [List.getD_cons_succ]

theorem weightOps_complete (morphs : List Nat) :
    ∀ (value : List Int) (i0 i j : Nat), j ∈ morphs → i < value.length →
      (j, i0 + i, value.getD i 0) ∈ weightOps morphs value i0 := by
  intro value
  induction value with
  | nil =>
    intro i0 i j _ hi
    exact absurd hi (by simp)
  | cons v rest ih =>
    intro i0 i j hj hi
    rw [weightOps]
    cases i with
    | zero =>
      apply List.mem_append_left
      simp only [List.getD_cons_zero, Nat.add_zero]
      exact List.mem_map.mpr ⟨j, hj, rfl⟩
    | succ i2 =>
      apply List.mem_append_right
      have hrec := ih (i0 + 1) i2 j hj (by simpa using hi)
      have harith : i0 + 1 + i2 = i0 + (i2 + 1) := by omega
      rw [harith] at hrec
      simpa [List.getD_cons_succ] using hrec

theorem invokeWeights_sets (morphs : List Nat) (value : List Int) (w : Nat → Nat → Int)
    (j i : Nat) (hj : j ∈ morphs) (hi : i < value.length) :
    invokeWeights morphs value w j i = value.getD i 0 := by
  unfold invokeWeights
  apply applyOps_hit
  · intro o ho h1 h2
    obtain ⟨_, i2, hi2, hidx, hval⟩ := weightOps_sound morphs value 0 o ho
    have : i2 = i := by omega
    subst this
    exact hval
  · have hm := weightOps_complete morphs value 0 i j hj hi
    exact ⟨(j, 0 + i, value.getD i 0), hm, rfl, show i = 0 + i by omega⟩

/-- C9 counterexample: a node with exactly ONE matching morph instance
whose morph has 2 morph targets yields a `weights` target whose expected
vector has 2 components — the morph-target count, not the morph-instance
count K = 1 the claim states. -/
theorem C9_counterexample :
    (matchingMorphs [miC9] "N").length = 1
    ∧ (resolve bC9 initState pC9).1.map (fun t => t.valueCount) = some 2 := by
  decide

/-- C9 (amended): binding `weights` on a node with no matching morph
instances returns absent; with at least one, the target's expected
vector has exactly as many components as the FIRST matching morph
instance's morph has morph targets, and invoking the target with a
vector of length L sets, for every index `i < L`, weight `i` of every
captured morph instance to the vector's component `i`. -/
theorem C9_amended (b : Binder) (node : NodeRef) (uid : Nat) (mis : List MeshInstance)
    (hm : b.meshInstances node.path = some mis) :
    (matchingMorphs mis node.name = [] → runHandler b "weights" node uid = none)
    ∧ (∀ m rest, matchingMorphs mis node.name = m :: rest →
        ∃ t, runHandler b "weights" node uid = some t
          ∧ t.valueCount = m.targetsLen
          ∧ t.func = TargetFunc.setWeights
              ((matchingMorphs mis node.name).map (fun x => x.uid))
          ∧ ∀ (value : List Int) (w : Nat → Nat → Int) (j i : Nat),
              j ∈ (matchingMorphs mis node.name).map (fun x => x.uid) →
              i < value.length →
              invokeWeights ((matchingMorphs mis node.name).map (fun x => x.uid)) value w j i
                = value.getD i 0) := by
  have hrun : runHandler b "weights" node uid =
      (match matchingMorphs mis node.name with
       | [] => none
       | m :: _ =>
         some (createAnimTarget
           (.setWeights ((matchingMorphs mis node.name).map (fun x => x.uid)))
           "vector" m.targetsLen node.path "weights" none uid)) := by
    unfold runHandler
    rw [hm]
    norm_num
    rw [if_neg (by decide), if_neg (by decide), if_neg (by decide)]
  constructor
  · intro h0
    rw [hrun, h0]
  · intro m rest hcons
    rw [hrun, hcons]
    refine ⟨_, rfl, rfl, rfl, ?_⟩
    intro value w j i hj hi
    exact invokeWeights_sets _ value w j i hj hi

/-- C9 witness: the amended rule at the one-morph-instance,
two-morph-target node. -/
theorem C9_witness :
    ∃ t, runHandler bC9 "weights" nodeC9 0 = some t
      ∧ t.valueCount = (⟨7, 2⟩ : MorphInst).targetsLen
      ∧ t.func = TargetFunc.setWeights
          ((matchingMorphs [miC9] nodeC9.name).map (fun x => x.uid))
      ∧ ∀ (value : List Int) (w : Nat → Nat → Int) (j i : Nat),
          j ∈ (matchingMorphs [miC9] nodeC9.name).map (fun x => x.uid) →
          i < value.length →
          invokeWeights ((matchingMorphs [miC9] nodeC9.name).map (fun x => x.uid)) value w j i
            = value.getD i 0 :=
  (C9_amended bC9 nodeC9 0 [miC9] (by decide)).2 ⟨7, 2⟩ [] (by decide)

theorem buildNodes_last (l : List NodeRef) :
    ∀ (m0 : String → Option NodeRef) (k : String),
      l.foldl (fun m nd => fun q => if q = nd.name then some nd else m q) m0 k
        = match l.reverse.find? (fun nd => nd.name == k) with
          | some nd => some nd
          | none => m0 k := by
  induction l with
  | nil => intro m0 k; rfl
  | cons nd t ih =>
    intro m0 k
    rw [List.foldl_cons, ih]
    rw [List.reverse_cons, List.find?_append]
    cases hf : t.reverse.find? (fun x => x.name == k) with
    | some x => rfl
    | none =>
      show (if k = nd.name then some nd else m0 k)
          = match (Option.none.orElse fun _ => [nd].find? (fun x => x.name == k)) with
            | some y => some y
            | none => m0 k
      by_cases hq : k = nd.name
      · subst hq
        simp [List.find?]
      · have hne : (nd.name == k) = false := by
          exact beq_false_of_ne (fun h => hq h.symm)
        simp [List.find?, hne, hq]

/-- C10: the flat name index built by the constructor's pre-order
`flatten` maps each name to the LAST node with that name in the
depth-first pre-order traversal (node before children, children in index
order) — later visits overwrite earlier ones; `findNode`'s fallback
returns exactly the flat-index entry for the last segment, and a
graph-component `unresolve` decrements exactly that node's count. -/
theorem C10_flat_index (g : GraphNode) (nm : String) (mask : Option Mask)
    (mesh : String → Option (List MeshInstance)) :
    (mkBinder g mask mesh).nodes nm
      = (preorderRefs g).reverse.find? (fun nd => nd.name == nm)
    ∧ (∀ (b : Binder) (s : BState) (p : AnimPath),
        isPathActive b.graph.name b.mask p.entityPath = true →
        findByPathRef p.entityPath b.graph b.graph.name = none →
        (findNode b s p).1 = b.nodes (lastSegD p))
    ∧ (∀ (b : Binder) (s : BState) (p : AnimPath) (n : NodeRef),
        p.component = "graph" → b.nodes (lastSegD p) = some n →
        ∃ s2, unresolve b s p = some s2
          ∧ s2.nodeCounts n.path = (s.nodeCounts n.path).jsDecr) := by
  refine ⟨?_, ?_, ?_⟩
  · show buildNodes (preorderRefs g) nm
        = (preorderRefs g).reverse.find? (fun nd => nd.name == nm)
    unfold buildNodes
    rw [buildNodes_last]
    cases (preorderRefs g).reverse.find? (fun nd => nd.name == nm) with
    | some x => rfl
    | none => rfl
  · intro b s p ha he
    exact findNode_fallback_fst b s p ha he
  · intro b s p n hcomp hn
    rw [unresolve_graph b s p n hcomp hn]
    by_cases hz : (((s.nodeCounts n.path).jsDecr).isZero) = true
    · rw [if_pos hz]
      refine ⟨_, rfl, ?_⟩
      show (if n.path = n.path then (s.nodeCounts n.path).jsDecr else s.nodeCounts n.path)
          = (s.nodeCounts n.path).jsDecr
      rw [if_pos rfl]
    · rw [if_neg hz]
      refine ⟨_, rfl, ?_⟩
      show (if n.path = n.path then (s.nodeCounts n.path).jsDecr else s.nodeCounts n.path)
          = (s.nodeCounts n.path).jsDecr
      rw [if_pos rfl]

/-- C10 witness: on the duplicate-name graph `R -> (A -> B, C -> B)` the
index maps `B` to the pre-order-last node `R/C/B`, and the fallback
`findNode` for path `B` returns exactly that flat-index entry. -/
theorem C10_witness :
    bDup.nodes "B" = some { name := "B", path := "R/C/B" }
    ∧ (findNode bDup initState pWit).1 = bDup.nodes "B" := by
  have h := C10_flat_index gDup "B" none noMesh
  constructor
  · have h1 := h.1
    rw [show (mkBinder gDup none noMesh).nodes = bDup.nodes from rfl] at h1
    rw [h1]
    decide
  · exact h.2.1 bDup initState pWit (by decide) (by decide)
